import Mathlib

/-
  Verification development for the RA_map regional geodata pipeline.

  The definitions below are a shallow embedding of the Python sources:
    * src/utils/postcode.py    : process_regional_data, get_postcode_shapefile
    * src/utils/data_loader.py : get_available_regions

  Modelling conventions:
    * Python strings are `List Char` (`Str`); the regex character classes
      [A-Za-z] and \d are modelled over ASCII code points.
    * A pandas/geopandas table is a schema (column-name list) plus rows; a
      geometry value is an opaque `Nat` token.
    * The on-disk shapefile collection is an immutable map
      `Str -> Option GeoTable` from file path to the table that
      gpd.read_file would return (`none` = missing/unreadable file).
    * Printed per-postcode warnings are modelled as an output list of
      (postcode, Reason) pairs, and each gpd.read_file call on a shard is
      recorded in an output list of paths (the disk-read trace).
    * File parsing of the NEB metrics input and the detection of its
      postcode column succeed; the metrics table is passed in already
      parsed, with its postcode column projected out (Option = NaN).
-/

namespace RAMap

abbrev Str := List Char

/-- The regex class [A-Za-z] of the shard-key pattern in get_postcode_shapefile. -/
def isLetter (c : Char) : Bool :=
  decide ((65 ≤ c.toNat ∧ c.toNat ≤ 90) ∨ (97 ≤ c.toNat ∧ c.toNat ≤ 122))

/-- The regex class \d (ASCII digits) of the shard-key pattern. -/
def isDigitCh (c : Char) : Bool :=
  decide (48 ≤ c.toNat ∧ c.toNat ≤ 57)

/-- `re.match(r'^([A-Za-z]{1,2})\d', pc)` with the matched group lowercased:
    greedy, so two letters followed by a digit are tried first, then one
    letter followed by a digit. -/
def shardKey (pc : Str) : Option Str :=
  match pc with
  | a :: b :: rest =>
    if isLetter a then
      if isLetter b then
        match rest with
        | c :: _ => if isDigitCh c then some [a.toLower, b.toLower] else none
        | [] => none
      else if isDigitCh b then some [a.toLower] else none
    else none
  | _ => none

def strPOSTCODE : Str := "POSTCODE".data

def strGeometry : Str := "geometry".data

def oneLetterDir : Str := "one_letter_pc_code/".data

def twoLetterDir : Str := "two_letter_pc_code/".data

def shpExt : Str := ".shp".data

/-- Relative shard path: `one_letter_pc_code/k/k.shp` for a one-letter key,
    `two_letter_pc_code/kk.shp` for a two-letter key. -/
def shardRel (k : Str) : Str :=
  if k.length = 1 then oneLetterDir ++ k ++ '/' :: k ++ shpExt
  else twoLetterDir ++ k ++ shpExt

/-- `os.path.join(folder, rel)` for a folder without trailing slash. -/
def shardPath (folder k : Str) : Str := folder ++ '/' :: shardRel k

/-- One row of a shard / geometry table: the POSTCODE attribute plus an
    opaque geometry token. -/
structure GeoRow where
  postcode : Str
  geom : Nat
  deriving DecidableEq

/-- A (geo)pandas table: column names plus rows. -/
structure GeoTable where
  cols : List Str
  rows : List GeoRow
  deriving DecidableEq

/-- Schema of the empty GeoDataFrame built at the end of
    get_postcode_shapefile. -/
def canonicalCols : List Str := [strPOSTCODE, strGeometry]

/-- The per-postcode failure kinds printed by get_postcode_shapefile. -/
inductive Reason where
  | invalidFormat
  | shardLoadFailed
  | notInShard
  deriving DecidableEq

/-- State threaded through the loop of get_postcode_shapefile:
    the loaded_shapefiles dict, the all_postcode_data accumulator, the
    printed warnings, and the trace of gpd.read_file calls. -/
structure ResolveState where
  cache : List (Str × GeoTable)
  found : List GeoTable
  warns : List (Str × Reason)
  reads : List Str
  deriving DecidableEq

/-- Lookup in the loaded_shapefiles dict (keyed by path). -/
def lookupCache : List (Str × GeoTable) → Str → Option GeoTable
  | [], _ => none
  | e :: rest, q => if e.1 = q then some e.2 else lookupCache rest q

/-- `pc_shp[pc_shp['POSTCODE'] == pc]` and the subsequent append/warn. -/
def matchStep (st : ResolveState) (pc : Str) (tbl : GeoTable) : ResolveState :=
  let m := tbl.rows.filter (fun r => r.postcode = pc)
  if m = [] then ⟨st.cache, st.found, st.warns ++ [(pc, Reason.notInShard)], st.reads⟩
  else ⟨st.cache, st.found ++ [⟨tbl.cols, m⟩], st.warns, st.reads⟩

/-- One iteration of the postcode loop in get_postcode_shapefile. -/
def resolveStep (folder : Str) (shards : Str → Option GeoTable)
    (st : ResolveState) (pc : Str) : ResolveState :=
  match shardKey pc with
  | none => ⟨st.cache, st.found, st.warns ++ [(pc, Reason.invalidFormat)], st.reads⟩
  | some k =>
    let path := shardPath folder k
    match lookupCache st.cache path with
    | some tbl => matchStep st pc tbl
    | none =>
      match shards path with
      | none =>
        ⟨st.cache, st.found, st.warns ++ [(pc, Reason.shardLoadFailed)], st.reads ++ [path]⟩
      | some tbl =>
        matchStep ⟨st.cache ++ [(path, tbl)], st.found, st.warns, st.reads ++ [path]⟩ pc tbl

def initState : ResolveState := ⟨[], [], [], []⟩

/-- pandas concat column union, in order of first appearance. -/
def insertCol (acc : List Str) (c : Str) : List Str :=
  if c ∈ acc then acc else acc ++ [c]

def colsUnion (ls : List (List Str)) : List Str :=
  ls.foldl (fun acc cs => cs.foldl insertCol acc) []

/-- Final combine step of get_postcode_shapefile: concat the collected row
    groups, or build the canonical empty table. -/
def mkTable (found : List GeoTable) : GeoTable :=
  if found = [] then ⟨canonicalCols, []⟩
  else ⟨colsUnion (found.map GeoTable.cols), (found.map GeoTable.rows).flatten⟩

/-- get_postcode_shapefile: returns the combined geometry table, the
    printed warnings, and the disk-read trace. -/
def getPostcodeShapefile (folder : Str) (shards : Str → Option GeoTable)
    (postcodes : List Str) : GeoTable × List (Str × Reason) × List Str :=
  let fin := postcodes.foldl (resolveStep folder shards) initState
  (mkTable fin.found, fin.warns, fin.reads)

/-- What one postcode contributes to all_postcode_data, as a pure function
    of the disk contents: empty unless the format matches, the shard loads,
    and the exact-match filter is non-empty. -/
def rowsFor (folder : Str) (shards : Str → Option GeoTable) (pc : Str) : List GeoTable :=
  match shardKey pc with
  | none => []
  | some k =>
    match shards (shardPath folder k) with
    | none => []
    | some tbl =>
      let m := tbl.rows.filter (fun r => r.postcode = pc)
      if m = [] then [] else [⟨tbl.cols, m⟩]

/-- What one postcode contributes to the printed warnings, as a pure
    function of the disk contents. -/
def warnFor (folder : Str) (shards : Str → Option GeoTable) (pc : Str) : List (Str × Reason) :=
  match shardKey pc with
  | none => [(pc, Reason.invalidFormat)]
  | some k =>
    match shards (shardPath folder k) with
    | none => [(pc, Reason.shardLoadFailed)]
    | some tbl =>
      if tbl.rows.filter (fun r => r.postcode = pc) = [] then [(pc, Reason.notInShard)]
      else []

/-- The failure kind a postcode would be reported with. -/
def failReason (folder : Str) (shards : Str → Option GeoTable) (pc : Str) : Reason :=
  match shardKey pc with
  | none => Reason.invalidFormat
  | some k =>
    match shards (shardPath folder k) with
    | none => Reason.shardLoadFailed
    | some _ => Reason.notInShard

/-- Concatenation of a list-valued function over a list of postcodes. -/
def gatherF {α : Type} (f : Str → List α) : List Str → List α
  | [] => []
  | pc :: rest => f pc ++ gatherF f rest

/-- The shard path a postcode resolves to, if its format is valid. -/
def pathOfPc (folder : Str) (pc : Str) : Option Str :=
  (shardKey pc).map (shardPath folder)

/-- Number of postcodes in the list whose shard path is `p`. -/
def hitCount (folder : Str) (p : Str) : List Str → Nat
  | [] => 0
  | pc :: rest => (if pathOfPc folder pc = some p then 1 else 0) + hitCount folder p rest

/-- Number of occurrences of a path in the disk-read trace. -/
def countOcc (p : Str) : List Str → Nat
  | [] => 0
  | q :: rest => (if q = p then 1 else 0) + countOcc p rest

/-
  process_regional_data (src/utils/postcode.py).
-/

/-- One row of the NEB metrics table, projected to its postcode column
    (`none` = NaN) plus an opaque payload identifying the rest of the row. -/
structure MRow where
  pc : Option Str
  payload : Nat
  deriving DecidableEq

/-- One row of the merged table: the metrics row plus the matched geometry
    row, if any (`none` = null geometry after the left join). -/
structure JRow where
  m : MRow
  geo : Option GeoRow
  deriving DecidableEq

/-- `neb_df.merge(geo_df, left_on=postcode_col, right_on='POSTCODE',
    how='left')`: every metrics row is kept; a row with k matching geometry
    rows appears k times, a row with none appears once with null geometry. -/
def leftJoin (metrics : List MRow) (geo : List GeoRow) : List JRow :=
  match metrics with
  | [] => []
  | r :: rest =>
    (match geo.filter (fun g => some g.postcode = r.pc) with
     | [] => [⟨r, none⟩]
     | g0 :: gs => (g0 :: gs).map (fun g => ⟨r, some g⟩)) ++ leftJoin rest geo

/-- `combined_df['geometry'].notna().sum()`. -/
def countMatched (j : List JRow) : Nat :=
  (j.filter (fun r => r.geo.isSome)).length

/-- Outcome of the match-rate computation at the end of
    process_regional_data. `skipped`: the function returned before the
    join, so no rate was computed. `divZero`: the expression
    `geo_matched/len(combined_df)` was evaluated with `len(combined_df)`
    equal to 0 (under numpy this yields NaN rather than raising).
    `value q`: the rate `geo_matched/len(combined_df)` was computed. -/
inductive MatchRateOutcome where
  | skipped
  | divZero
  | value (q : Rat)
  deriving DecidableEq

/-- State of the persisted region file `{region_name}_postcodes.geojson`:
    missing, present but failing to load (gpd.read_file raises), or
    present and loading as the given table. -/
inductive CacheFile where
  | absent
  | corrupt
  | good (t : GeoTable)
  deriving DecidableEq

/-- Observable outcome of one process_regional_data call. `geoReturned` is
    the geo_df of the returned tuple, `joined` the combined_df (`none` when
    the function returns early), `resolveCalls` the number of
    get_postcode_shapefile invocations, `shardReads` the shard files read
    from disk, `savedFile` the contents written to the region file
    (`none` = no write). -/
structure PRDOutput where
  geoReturned : Option GeoTable
  joined : Option (List JRow)
  rate : MatchRateOutcome
  resolveCalls : Nat
  shardReads : List Str
  savedFile : Option GeoTable
  deriving DecidableEq

/-- `neb_df[postcode_col].dropna().unique().tolist()`: drop the NaN
    postcodes, keep the first occurrence of each value, in order. -/
def dedupAux : List Str → List Str → List Str
  | [], _ => []
  | x :: xs, seen => if x ∈ seen then dedupAux xs seen else x :: dedupAux xs (x :: seen)

def metricsPcs (metrics : List MRow) : List Str :=
  dedupAux (metrics.filterMap MRow.pc) []

/-- The join-and-report phase of process_regional_data, shared by the
    cached and the freshly-built geometry paths. -/
def mkJoinOut (gt : GeoTable) (metrics : List MRow) (calls : Nat)
    (reads : List Str) (saved : Option GeoTable) : PRDOutput :=
  ⟨some gt, some (leftJoin metrics gt.rows),
   (if (leftJoin metrics gt.rows).length = 0 then MatchRateOutcome.divZero
    else
      MatchRateOutcome.value
        ((countMatched (leftJoin metrics gt.rows) : Rat)
          / ((leftJoin metrics gt.rows).length : Rat))),
   calls, reads, saved⟩

/-- process_regional_data, after the NEB file has been parsed and its
    postcode column identified. A `good` region file short-circuits the
    build; `absent` and `corrupt` both leave geo_df as None, so the
    geometry is resolved from the metrics postcodes, written back when
    save_geo is set and at least one row resolved, and then joined. -/
def processRegionalData (cache : CacheFile) (metrics : List MRow) (folder : Str)
    (shards : Str → Option GeoTable) (saveGeo : Bool) : PRDOutput :=
  match cache with
  | CacheFile.good t => mkJoinOut t metrics 0 [] none
  | _ =>
    let pcs := metricsPcs metrics
    if pcs = [] then ⟨none, none, MatchRateOutcome.skipped, 0, [], none⟩
    else
      let res := getPostcodeShapefile folder shards pcs
      if res.1.rows = [] then ⟨none, none, MatchRateOutcome.skipped, 1, res.2.2, none⟩
      else mkJoinOut res.1 metrics 1 res.2.2 (if saveGeo then some res.1 else none)

/-- Totality specification of the match-rate computation of one
    process_regional_data call: this is what claim C2 asserts, except that
    on an empty join the code divides by zero (divZero) instead of
    reporting a no-data outcome (skipped). -/
def rateTotalSpec (out : PRDOutput) : Prop :=
  (∀ j, out.joined = some j → 0 < j.length →
      out.rate = MatchRateOutcome.value ((countMatched j : Rat) / (j.length : Rat))) ∧
  (∀ j, out.joined = some j → j.length = 0 → out.rate = MatchRateOutcome.divZero) ∧
  (out.joined = none → out.rate = MatchRateOutcome.skipped)

/-
  get_available_regions (src/utils/data_loader.py).
-/

/-- Is `pat` an initial segment of `s`? -/
def leadsWith : Str → Str → Bool
  | [], _ => true
  | _ :: _, [] => false
  | a :: pa, b :: s => if a = b then leadsWith pa s else false

def marker : Str := "_postcodes.geojson".data

/-- `filename.endswith('_postcodes.geojson')`. -/
def hasGeoSuffix (f : Str) : Bool := leadsWith marker.reverse f.reverse

/-- `str.replace(pat, '')`: left-to-right scan removing every
    non-overlapping occurrence of `pat`. Fuel-based structural recursion;
    `removeAllOcc` supplies fuel `s.length`, which is always enough. -/
def removeAux (pat : Str) : Nat → Str → Str
  | _, [] => []
  | 0, s => s
  | fuel + 1, c :: s =>
    if pat ≠ [] ∧ leadsWith pat (c :: s) = true then
      removeAux pat fuel (List.drop (pat.length - 1) s)
    else c :: removeAux pat fuel s

def removeAllOcc (pat s : Str) : Str := removeAux pat s.length s

/-- Strict lexicographic-or-equal comparison on strings by code point,
    as used by Python `sorted`. -/
def lexLE : Str → Str → Bool
  | [], _ => true
  | _ :: _, [] => false
  | a :: s, b :: t => if a = b then lexLE s t else decide (a.toNat < b.toNat)

def insertStr (x : Str) : List Str → List Str
  | [] => [x]
  | y :: ys => if lexLE x y then x :: y :: ys else y :: insertStr x ys

/-- A stable lexicographic sort, modelling Python `sorted`. -/
def sortStrs (l : List Str) : List Str := l.foldr insertStr []

/-- get_available_regions: keep the file names ending in
    `_postcodes.geojson`, apply `filename.replace('_postcodes.geojson', '')`
    to each, and sort. -/
def getAvailableRegions (files : List Str) : List Str :=
  sortStrs ((files.filter (fun f => hasGeoSuffix f)).map (removeAllOcc marker))

/-- Removing exactly the final `_postcodes.geojson` suffix, which is how
    the spec describes the derivation of region names. Stated for
    comparison with `getAvailableRegions`. -/
def stripGeoSuffix (f : Str) : Str := List.take (f.length - marker.length) f

/-- Region catalogue as the spec words it: suffix-stripped names, sorted. -/
def specRegions (files : List Str) : List Str :=
  sortStrs ((files.filter (fun f => hasGeoSuffix f)).map stripGeoSuffix)

/-- No occurrence of `_postcodes.geojson` starts before the suffix
    position. -/
def noEarlyOcc (f : Str) : Prop :=
  ∀ i, i < f.length → marker.length + i < f.length →
    leadsWith marker (List.drop i f) = false

instance (f : Str) : Decidable (noEarlyOcc f) :=
  Nat.decidableBallLT f.length fun i _ =>
    marker.length + i < f.length → leadsWith marker (List.drop i f) = false

/-
  Soundness of the shapefile cache, and concrete fixtures used to
  instantiate the theorems.
-/

/-- Every entry of the loaded_shapefiles dict is what gpd.read_file
    returns for that path. -/
def cacheSound (shards : Str → Option GeoTable) (c : List (Str × GeoTable)) : Prop :=
  ∀ p t, lookupCache c p = some t → shards p = some t

/-- A shapefile folder. -/
def fdr3 : Str := "shp".data

def sCB : Str := "CB30DG".data

def sXX : Str := "XX99ZZ".data

def sCBlow : Str := "cb3odg".data

def sXA : Str := "XX1A".data

def sXB : Str := "XX2B".data

def sZZ : Str := "ZZ9A".data

def fEE : Str := "EE_postcodes.geojson".data

def fLN : Str := "LN_postcodes.geojson".data

def rEE : Str := "EE".data

def rLN : Str := "LN".data

def fDouble : Str := "A_postcodes.geojson_postcodes.geojson".data

def fAstem : Str := "A_postcodes.geojson".data

/-- The cb shard, holding exactly the postcode CB30DG. -/
def cbTbl3 : GeoTable := ⟨canonicalCols, [⟨sCB, 1⟩]⟩

/-- A shard collection whose cb shard contains CB30DG and whose xx shard
    exists but is empty. -/
def shards3 : Str → Option GeoTable := fun p =>
  if p = shardPath fdr3 ['c', 'b'] then some cbTbl3
  else if p = shardPath fdr3 ['x', 'x'] then some ⟨canonicalCols, []⟩
  else none

/-- A shard collection with no readable shard at all. -/
def noShards : Str → Option GeoTable := fun _ => none

/-
  Structure of the resolution loop: the cache only memoizes successful
  gpd.read_file results, so the accumulated row groups and warnings are
  pure functions of the (immutable) disk contents.
-/

theorem lookupCache_nil (q : Str) : lookupCache [] q = none := rfl

theorem cacheSound_nil (shards : Str → Option GeoTable) : cacheSound shards [] := by
  intro p t h
  simp [lookupCache] at h

theorem lookup_append_of_some (c : List (Str × GeoTable)) (l : List (Str × GeoTable))
    (q : Str) (u : GeoTable) (h : lookupCache c q = some u) :
    lookupCache (c ++ l) q = some u := by
  induction c with
  | nil => simp [lookupCache] at h
  | cons e rest ih =>
    by_cases he : e.1 = q
    · simp [lookupCache, he] at h ⊢
      exact h
    · simp [lookupCache, he] at h ⊢
      exact ih h

theorem lookup_append_one_of_none (c : List (Str × GeoTable)) (p : Str) (t : GeoTable)
    (q : Str) (h : lookupCache c q = none) :
    lookupCache (c ++ [(p, t)]) q = if p = q then some t else none := by
  induction c with
  | nil => simp [lookupCache]
  | cons e rest ih =>
    by_cases he : e.1 = q
    · simp [lookupCache, he] at h
    · simp [lookupCache, he] at h ⊢
      exact ih h

theorem cacheSound_extend (shards : Str → Option GeoTable) (c : List (Str × GeoTable))
    (p : Str) (t : GeoTable) (hs : cacheSound shards c) (hp : shards p = some t) :
    cacheSound shards (c ++ [(p, t)]) := by
  intro q u hq
  cases hcq : lookupCache c q with
  | some v =>
    rw [lookup_append_of_some c [(p, t)] q v hcq] at hq
    injection hq with huv
    subst huv
    exact hs q v hcq
  | none =>
    rw [lookup_append_one_of_none c p t q hcq] at hq
    by_cases hpq : p = q
    · simp [hpq] at hq
      cases hq
      rw [← hpq]
      exact hp
    · simp [hpq] at hq

theorem matchStep_cache (st : ResolveState) (pc : Str) (tbl : GeoTable) :
    (matchStep st pc tbl).cache = st.cache := by
  unfold matchStep
  by_cases hm : tbl.rows.filter (fun r => r.postcode = pc) = [] <;> simp [hm]

theorem matchStep_reads (st : ResolveState) (pc : Str) (tbl : GeoTable) :
    (matchStep st pc tbl).reads = st.reads := by
  unfold matchStep
  by_cases hm : tbl.rows.filter (fun r => r.postcode = pc) = [] <;> simp [hm]

theorem resolveStep_spec (folder : Str) (shards : Str → Option GeoTable)
    (st : ResolveState) (pc : Str) (hs : cacheSound shards st.cache) :
    (resolveStep folder shards st pc).found = st.found ++ rowsFor folder shards pc ∧
    (resolveStep folder shards st pc).warns = st.warns ++ warnFor folder shards pc ∧
    cacheSound shards (resolveStep folder shards st pc).cache := by
  cases hk : shardKey pc with
  | none =>
    simp [resolveStep, rowsFor, warnFor, hk]
    exact hs
  | some k =>
    cases hl : lookupCache st.cache (shardPath folder k) with
    | some tbl =>
      have hsh := hs _ _ hl
      by_cases hm : tbl.rows.filter (fun r => r.postcode = pc) = [] <;>
        simp [resolveStep, rowsFor, warnFor, matchStep, hk, hl, hsh, hm] <;>
        exact hs
    | none =>
      cases hsh : shards (shardPath folder k) with
      | none =>
        simp [resolveStep, rowsFor, warnFor, hk, hl, hsh]
        exact hs
      | some tbl =>
        by_cases hm : tbl.rows.filter (fun r => r.postcode = pc) = [] <;>
          simp [resolveStep, rowsFor, warnFor, matchStep, hk, hl, hsh, hm] <;>
          exact cacheSound_extend shards st.cache _ tbl hs hsh

theorem foldResolve (folder : Str) (shards : Str → Option GeoTable) :
    ∀ (pcs : List Str) (st : ResolveState), cacheSound shards st.cache →
      (pcs.foldl (resolveStep folder shards) st).found
          = st.found ++ gatherF (rowsFor folder shards) pcs ∧
      (pcs.foldl (resolveStep folder shards) st).warns
          = st.warns ++ gatherF (warnFor folder shards) pcs := by
  intro pcs
  induction pcs with
  | nil =>
    intro st hs
    simp [gatherF]
  | cons pc rest ih =>
    intro st hs
    obtain ⟨hf, hw, hc⟩ := resolveStep_spec folder shards st pc hs
    obtain ⟨ihf, ihw⟩ := ih (resolveStep folder shards st pc) hc
    constructor
    · simp [List.foldl_cons, ihf, hf, gatherF, List.append_assoc]
    · simp [List.foldl_cons, ihw, hw, gatherF, List.append_assoc]

theorem gps_table (folder : Str) (shards : Str → Option GeoTable) (pcs : List Str) :
    (getPostcodeShapefile folder shards pcs).1
      = mkTable (gatherF (rowsFor folder shards) pcs) := by
  obtain ⟨hf, _⟩ := foldResolve folder shards pcs initState (cacheSound_nil shards)
  show mkTable ((List.foldl (resolveStep folder shards) initState pcs).found) = _
  rw [hf]
  rfl

theorem gps_warns (folder : Str) (shards : Str → Option GeoTable) (pcs : List Str) :
    (getPostcodeShapefile folder shards pcs).2.1
      = gatherF (warnFor folder shards) pcs := by
  obtain ⟨_, hw⟩ := foldResolve folder shards pcs initState (cacheSound_nil shards)
  show (List.foldl (resolveStep folder shards) initState pcs).warns = _
  rw [hw]
  rfl

theorem gatherF_append {α : Type} (f : Str → List α) (l1 l2 : List Str) :
    gatherF f (l1 ++ l2) = gatherF f l1 ++ gatherF f l2 := by
  induction l1 with
  | nil => simp [gatherF]
  | cons x xs ih => simp [gatherF, ih]

theorem gatherF_of_forall_nil {α : Type} (f : Str → List α) (l : List Str)
    (h : ∀ pc, pc ∈ l → f pc = []) : gatherF f l = [] := by
  induction l with
  | nil => rfl
  | cons x xs ih =>
    simp [gatherF, h x (List.mem_cons_self x xs)]
    exact ih fun pc hpc => h pc (List.mem_cons_of_mem x hpc)

theorem warnFor_of_rowsFor_nil (folder : Str) (shards : Str → Option GeoTable)
    (pc : Str) (h : rowsFor folder shards pc = []) :
    warnFor folder shards pc = [(pc, failReason folder shards pc)] := by
  cases hk : shardKey pc with
  | none => simp [warnFor, failReason, hk]
  | some k =>
    cases hsh : shards (shardPath folder k) with
    | none => simp [warnFor, failReason, hk, hsh]
    | some tbl =>
      by_cases hm : tbl.rows.filter (fun r => r.postcode = pc) = []
      · simp [warnFor, failReason, hk, hsh, hm]
      · simp [rowsFor, hk, hsh, hm] at h

/-- Claim C6: a postcode whose resolution fails (invalid format, unloadable
    shard, or no matching row) contributes nothing to the output table —
    the batch over the remaining postcodes is unaffected — and the failure
    is recorded in the printed warnings with its failure kind. -/
theorem c6_skip_failed (folder : Str) (shards : Str → Option GeoTable)
    (pre post : List Str) (pc : Str) (h : rowsFor folder shards pc = []) :
    (getPostcodeShapefile folder shards (pre ++ pc :: post)).1
      = (getPostcodeShapefile folder shards (pre ++ post)).1 ∧
    (pc, failReason folder shards pc)
      ∈ (getPostcodeShapefile folder shards (pre ++ pc :: post)).2.1 := by
  constructor
  · rw [gps_table, gps_table]
    have hg : gatherF (rowsFor folder shards) (pre ++ pc :: post)
        = gatherF (rowsFor folder shards) (pre ++ post) := by
      rw [gatherF_append, gatherF_append]
      simp [gatherF, h]
    rw [hg]
  · rw [gps_warns, gatherF_append]
    simp [gatherF, warnFor_of_rowsFor_nil folder shards pc h]

/-- Witness for C6: against the fixture shard collection, dropping the
    failing postcode XX99ZZ leaves the resolved table unchanged and
    XX99ZZ is recorded with its failure kind. -/
theorem c6_skip_failed_witness :
    (getPostcodeShapefile fdr3 shards3 [sCB, sXX]).1
        = (getPostcodeShapefile fdr3 shards3 [sCB]).1 ∧
    (sXX, failReason fdr3 shards3 sXX)
        ∈ (getPostcodeShapefile fdr3 shards3 [sCB, sXX]).2.1 :=
  c6_skip_failed fdr3 shards3 [sCB] [] sXX (by decide)

/-- Claim C7: when no postcode resolves to a row, get_postcode_shapefile
    returns the empty table with the canonical two-column schema. -/
theorem c7_empty_schema (folder : Str) (shards : Str → Option GeoTable)
    (pcs : List Str) (h : ∀ pc, pc ∈ pcs → rowsFor folder shards pc = []) :
    (getPostcodeShapefile folder shards pcs).1 = ⟨canonicalCols, []⟩ := by
  rw [gps_table, gatherF_of_forall_nil _ _ h]
  rfl

/-- Witness for C7: with no readable shard, one postcode, empty canonical
    result. -/
theorem c7_empty_schema_witness :
    (getPostcodeShapefile fdr3 noShards [sCB]).1 = ⟨canonicalCols, []⟩ :=
  c7_empty_schema fdr3 noShards [sCB] (by decide)

/-
  The left join of process_regional_data.
-/

theorem filter_key_len_le_one (geo : List GeoRow)
    (h : (geo.map GeoRow.postcode).Nodup) (o : Option Str) :
    (geo.filter (fun g => some g.postcode = o)).length ≤ 1 := by
  cases o with
  | none => simp
  | some s =>
    induction geo with
    | nil => simp
    | cons g rest ih =>
      rw [List.map_cons, List.nodup_cons] at h
      by_cases hg : g.postcode = s
      · simp [List.filter_cons, hg]
        intro a ha has
        apply h.1
        rw [hg, ← has]
        exact List.mem_map_of_mem GeoRow.postcode ha
      · have hd : (decide (some g.postcode = some s)) = false := by
          simp [hg]
        simp only [List.filter_cons, hd, if_false]
        exact ih h.2

theorem leftJoin_length (metrics : List MRow) (geo : List GeoRow)
    (h : (geo.map GeoRow.postcode).Nodup) :
    (leftJoin metrics geo).length = metrics.length := by
  induction metrics with
  | nil => rfl
  | cons r rest ih =>
    have hle := filter_key_len_le_one geo h r.pc
    cases hf : geo.filter (fun g => some g.postcode = r.pc) with
    | nil => simp [leftJoin, hf, ih]
    | cons g0 gs =>
      rw [hf] at hle
      simp only [List.length_cons, Nat.succ_le_succ_iff, Nat.le_zero,
        List.length_eq_zero] at hle
      subst hle
      simp [leftJoin, hf, ih]

/-- Claim C1: with the persisted geometry table loaded, process_regional_data
    left-joins the metrics table to it; when the geometry table's POSTCODE
    column is unique, the joined table has exactly as many rows as the
    metrics table (no row dropped, none duplicated). -/
theorem c1_join_preserves_rows (g : GeoTable) (metrics : List MRow) (folder : Str)
    (shards : Str → Option GeoTable) (saveGeo : Bool)
    (h : (g.rows.map GeoRow.postcode).Nodup) :
    (processRegionalData (CacheFile.good g) metrics folder shards saveGeo).joined
        = some (leftJoin metrics g.rows) ∧
    (leftJoin metrics g.rows).length = metrics.length := by
  exact ⟨rfl, leftJoin_length metrics g.rows h⟩

/-- Witness for C1: a two-row metrics table (one NaN postcode) joined
    against the unique-keyed cb shard keeps exactly two rows. -/
theorem c1_join_preserves_rows_witness :
    (processRegionalData (CacheFile.good cbTbl3) [⟨some sCB, 0⟩, ⟨none, 1⟩]
        fdr3 noShards true).joined
        = some (leftJoin [⟨some sCB, 0⟩, ⟨none, 1⟩] cbTbl3.rows) ∧
    (leftJoin [⟨some sCB, 0⟩, ⟨none, 1⟩] cbTbl3.rows).length
        = [(⟨some sCB, 0⟩ : MRow), ⟨none, 1⟩].length :=
  c1_join_preserves_rows cbTbl3 [⟨some sCB, 0⟩, ⟨none, 1⟩] fdr3 noShards true (by decide)

/-- Claim C4: when the persisted region file exists and loads,
    process_regional_data returns the loaded geometry unchanged, invokes
    get_postcode_shapefile zero times, reads no shard from disk and writes
    nothing — for every metrics table, i.e. regardless of whether the
    postcode set has changed since the file was persisted. -/
theorem c4_cache_short_circuit (g : GeoTable) (metrics : List MRow) (folder : Str)
    (shards : Str → Option GeoTable) (saveGeo : Bool) :
    (processRegionalData (CacheFile.good g) metrics folder shards saveGeo).geoReturned
        = some g ∧
    (processRegionalData (CacheFile.good g) metrics folder shards saveGeo).resolveCalls = 0 ∧
    (processRegionalData (CacheFile.good g) metrics folder shards saveGeo).shardReads = [] ∧
    (processRegionalData (CacheFile.good g) metrics folder shards saveGeo).savedFile = none :=
  ⟨rfl, rfl, rfl, rfl⟩

theorem mkJoinOut_rate (gt : GeoTable) (metrics : List MRow) (calls : Nat)
    (reads : List Str) (saved : Option GeoTable) :
    rateTotalSpec (mkJoinOut gt metrics calls reads saved) := by
  refine ⟨?_, ?_, ?_⟩
  · intro j hj hpos
    simp only [mkJoinOut, Option.some.injEq] at hj
    subst hj
    simp only [mkJoinOut]
    rw [if_neg (Nat.pos_iff_ne_zero.mp hpos)]
  · intro j hj h0
    simp only [mkJoinOut, Option.some.injEq] at hj
    subst hj
    simp only [mkJoinOut]
    rw [if_pos h0]
  · intro hj
    simp only [mkJoinOut] at hj
    exact absurd hj (by simp)

/-- Claim C2 (amended): whenever the join runs on at least one row the
    reported match rate is matched_count / total_count; when the function
    returns before the join no rate is computed; but when the join runs on
    zero rows (persisted geometry present, empty metrics table) the code
    evaluates the rate expression with total_count = 0 — a zero division
    (NaN under numpy), not a NoData report. -/
theorem c2_match_rate_total_amended (cache : CacheFile) (metrics : List MRow)
    (folder : Str) (shards : Str → Option GeoTable) (saveGeo : Bool) :
    rateTotalSpec (processRegionalData cache metrics folder shards saveGeo) := by
  cases cache with
  | good t => exact mkJoinOut_rate t metrics 0 [] none
  | absent =>
    by_cases hp : metricsPcs metrics = []
    · refine ⟨?_, ?_, ?_⟩ <;> simp [processRegionalData, hp]
    · by_cases hr : (getPostcodeShapefile folder shards (metricsPcs metrics)).1.rows = []
      · refine ⟨?_, ?_, ?_⟩ <;> simp [processRegionalData, hp, hr]
      · have := mkJoinOut_rate (getPostcodeShapefile folder shards (metricsPcs metrics)).1
          metrics 1 (getPostcodeShapefile folder shards (metricsPcs metrics)).2.2
          (if saveGeo then some (getPostcodeShapefile folder shards (metricsPcs metrics)).1
           else none)
        simpa [processRegionalData, hp, hr] using this
  | corrupt =>
    by_cases hp : metricsPcs metrics = []
    · refine ⟨?_, ?_, ?_⟩ <;> simp [processRegionalData, hp]
    · by_cases hr : (getPostcodeShapefile folder shards (metricsPcs metrics)).1.rows = []
      · refine ⟨?_, ?_, ?_⟩ <;> simp [processRegionalData, hp, hr]
      · have := mkJoinOut_rate (getPostcodeShapefile folder shards (metricsPcs metrics)).1
          metrics 1 (getPostcodeShapefile folder shards (metricsPcs metrics)).2.2
          (if saveGeo then some (getPostcodeShapefile folder shards (metricsPcs metrics)).1
           else none)
        simpa [processRegionalData, hp, hr] using this

/-- Witness for C2 (amended): a one-row metrics table joined against the
    loaded cb shard reports rate 1/1. -/
theorem c2_match_rate_witness :
    (processRegionalData (CacheFile.good cbTbl3) [⟨some sCB, 0⟩] fdr3 noShards true).rate
      = MatchRateOutcome.value
          ((countMatched (leftJoin [⟨some sCB, 0⟩] cbTbl3.rows) : Rat)
            / ((leftJoin [⟨some sCB, 0⟩] cbTbl3.rows).length : Rat)) :=
  (c2_match_rate_total_amended (CacheFile.good cbTbl3) [⟨some sCB, 0⟩] fdr3 noShards true).1
    (leftJoin [⟨some sCB, 0⟩] cbTbl3.rows) (by decide) (by decide)

/-- Counterexample for C2 (as stated): with a loaded region file and an
    empty metrics table, the join runs on zero rows and the code evaluates
    the match-rate division with total_count = 0 instead of reporting the
    no-join (NoData) outcome. -/
theorem c2_divzero_cex :
    (processRegionalData (CacheFile.good cbTbl3) [] fdr3 noShards true).rate
      = MatchRateOutcome.divZero ∧
    MatchRateOutcome.divZero ≠ MatchRateOutcome.skipped := by
  exact ⟨rfl, by decide⟩

/-- Claim C10 (amended): with a corrupt (present but unloadable) region
    file, process_regional_data never returns the stale contents: it
    re-resolves from the metrics postcodes (one get_postcode_shapefile
    call whenever the postcode set is non-empty), returns the fresh result
    when non-empty, and overwrites the file exactly when saving is enabled
    and the fresh resolution is non-empty; when the resolution is empty it
    returns no geometry and leaves the corrupt file in place. -/
theorem c10_corrupt_rebuild_amended (metrics : List MRow) (folder : Str)
    (shards : Str → Option GeoTable) (saveGeo : Bool) :
    (processRegionalData CacheFile.corrupt metrics folder shards saveGeo).geoReturned
        = (if (getPostcodeShapefile folder shards (metricsPcs metrics)).1.rows = []
           then none
           else some (getPostcodeShapefile folder shards (metricsPcs metrics)).1) ∧
    (processRegionalData CacheFile.corrupt metrics folder shards saveGeo).savedFile
        = (if saveGeo = true
              ∧ (getPostcodeShapefile folder shards (metricsPcs metrics)).1.rows ≠ []
           then some (getPostcodeShapefile folder shards (metricsPcs metrics)).1
           else none) ∧
    (processRegionalData CacheFile.corrupt metrics folder shards saveGeo).resolveCalls
        = (if metricsPcs metrics = [] then 0 else 1) := by
  by_cases hp : metricsPcs metrics = []
  · have hrows : (getPostcodeShapefile folder shards []).1.rows = [] := rfl
    simp [processRegionalData, hp, hrows]
  · by_cases hr : (getPostcodeShapefile folder shards (metricsPcs metrics)).1.rows = []
    · simp [processRegionalData, hp, hr]
    · by_cases hs : saveGeo <;> simp [processRegionalData, mkJoinOut, hp, hr, hs]

/-- Counterexample for C10 (as stated): corrupt region file, saving
    enabled, but the only postcode resolves to nothing — the claimed
    overwrite of the corrupt file never happens (no write at all), even
    though shard resolution was invoked. -/
theorem c10_no_overwrite_cex :
    (processRegionalData CacheFile.corrupt [⟨some sZZ, 0⟩] fdr3 noShards true).savedFile
        = none ∧
    (processRegionalData CacheFile.corrupt [⟨some sZZ, 0⟩] fdr3 noShards true).resolveCalls
        = 1 := by
  exact ⟨rfl, rfl⟩

/-
  The shard-key pattern.
-/

theorem digit_not_letter (c : Char) (h : isDigitCh c = true) : isLetter c = false := by
  simp only [isDigitCh, decide_eq_true_eq] at h
  simp only [isLetter, decide_eq_false_iff_not]
  omega

/-- Claim C5: a leading letter followed by a digit yields the one-letter
    key (lowercased), two leading letters followed by a digit yield the
    two-letter key (lowercased); one-letter keys map to
    one_letter_pc_code/k/k.shp and two-letter keys to
    two_letter_pc_code/kk.shp under the shapefile folder; a string with no
    such leading pattern yields no key, and the resolution loop then only
    records an InvalidFormat warning — no path is formed, nothing is read. -/
theorem c5_shard_key_paths (folder : Str) :
    (∀ (a d : Char) (r : Str), isLetter a = true → isDigitCh d = true →
        shardKey (a :: d :: r) = some [a.toLower]) ∧
    (∀ (a b d : Char) (r : Str), isLetter a = true → isLetter b = true →
        isDigitCh d = true →
        shardKey (a :: b :: d :: r) = some [a.toLower, b.toLower]) ∧
    (∀ pc : Str,
        ¬ ((∃ a d r, pc = a :: d :: r ∧ isLetter a = true ∧ isDigitCh d = true) ∨
           (∃ a b d r, pc = a :: b :: d :: r ∧ isLetter a = true ∧ isLetter b = true ∧
              isDigitCh d = true)) →
        shardKey pc = none) ∧
    (∀ pc : Str, shardKey pc = none → ∀ (shards : Str → Option GeoTable)
        (st : ResolveState),
        resolveStep folder shards st pc
          = ⟨st.cache, st.found, st.warns ++ [(pc, Reason.invalidFormat)], st.reads⟩) ∧
    (∀ k : Char,
        shardPath folder [k] = folder ++ '/' :: (oneLetterDir ++ [k] ++ '/' :: [k] ++ shpExt)) ∧
    (∀ k1 k2 : Char,
        shardPath folder [k1, k2] = folder ++ '/' :: (twoLetterDir ++ [k1, k2] ++ shpExt)) := by
  refine ⟨?_, ?_, ?_, ?_, ?_, ?_⟩
  · intro a d r ha hd
    simp [shardKey, ha, hd, digit_not_letter d hd]
  · intro a b d r ha hb hd
    simp [shardKey, ha, hb, hd]
  · intro pc hpat
    match pc with
    | [] => rfl
    | [a] => rfl
    | a :: b :: rest =>
      by_cases la : isLetter a
      · by_cases lb : isLetter b
        · match rest with
          | [] => simp [shardKey, la, lb]
          | c :: rest' =>
            by_cases dc : isDigitCh c
            · exact absurd (Or.inr ⟨a, b, c, rest', rfl, la, lb, dc⟩) hpat
            · simp [shardKey, la, lb, dc]
        · by_cases db : isDigitCh b
          · exact absurd (Or.inl ⟨a, b, rest, rfl, la, db⟩) hpat
          · simp [shardKey, la, lb, db]
      · simp [shardKey, la]
  · intro pc h shards st
    simp [resolveStep, h]
  · intro k
    rfl
  · intro k1 k2
    rfl

/-- Witness for C5: the one- and two-letter patterns at concrete inputs
    C3 and CB30DG. -/
theorem c5_shard_key_witness :
    shardKey ('C' :: '3' :: []) = some ['C'.toLower] ∧
    shardKey ('C' :: 'B' :: '3' :: ('0' :: 'D' :: 'G' :: [])) = some ['C'.toLower, 'B'.toLower] :=
  ⟨(c5_shard_key_paths fdr3).1 'C' '3' [] (by decide) (by decide),
   (c5_shard_key_paths fdr3).2.1 'C' 'B' '3' ('0' :: 'D' :: 'G' :: [])
     (by decide) (by decide) (by decide)⟩

/-
  The end-to-end example of claim C3.
-/

/-- Counterexample for C3 (as stated): the claim records cb3odg as
    InvalidFormat, but the code's pattern accepts lowercase letters, so
    cb3odg maps to the cb shard, where the case-sensitive exact match
    fails: it is recorded as not-found-in-shard, never as InvalidFormat. -/
theorem c3_example_cex :
    ¬ ((sCBlow, Reason.invalidFormat)
        ∈ (getPostcodeShapefile fdr3 shards3 [sCB, sXX, sCBlow]).2.1) ∧
    (sCBlow, Reason.notInShard)
        ∈ (getPostcodeShapefile fdr3 shards3 [sCB, sXX, sCBlow]).2.1 := by
  decide

/-- Claim C3 (amended): for postcodes [CB30DG, XX99ZZ, cb3odg] against a
    collection whose cb shard contains exactly CB30DG and whose xx shard
    exists but does not contain XX99ZZ, resolution returns exactly the
    CB30DG row, records XX99ZZ as not found in its shard, and records
    cb3odg also as not found in its shard (its lowercase leading letters
    match the code's format pattern and route it to the cb shard); the cb
    and xx shards are each read once. -/
theorem c3_example_amended :
    getPostcodeShapefile fdr3 shards3 [sCB, sXX, sCBlow]
      = (cbTbl3,
         [(sXX, Reason.notInShard), (sCBlow, Reason.notInShard)],
         [shardPath fdr3 ['c', 'b'], shardPath fdr3 ['x', 'x']]) := by
  decide

/-
  Disk reads of the resolution loop: successful shard loads are memoized,
  failed ones are not.
-/

theorem countOcc_append (p : Str) (a b : List Str) :
    countOcc p (a ++ b) = countOcc p a + countOcc p b := by
  induction a with
  | nil => simp [countOcc]
  | cons x xs ih =>
    simp [countOcc, ih]
    omega

theorem lookup_append_other (c : List (Str × GeoTable)) (q : Str) (t : GeoTable)
    (p : Str) (h : q ≠ p) :
    lookupCache (c ++ [(q, t)]) p = lookupCache c p := by
  induction c with
  | nil => simp [lookupCache, h]
  | cons e rest ih =>
    by_cases he : e.1 = p <;> simp [lookupCache, he, ih]

theorem foldReads (folder : Str) (shards : Str → Option GeoTable) (p : Str) :
    ∀ (pcs : List Str) (st : ResolveState), cacheSound shards st.cache →
      countOcc p (List.foldl (resolveStep folder shards) st pcs).reads
        = countOcc p st.reads +
            (if (shards p).isSome then
               (if lookupCache st.cache p = none then min 1 (hitCount folder p pcs) else 0)
             else hitCount folder p pcs) := by
  intro pcs
  induction pcs with
  | nil =>
    intro st hs
    simp [hitCount]
  | cons pc rest ih =>
    intro st hs
    have hsound := (resolveStep_spec folder shards st pc hs).2.2
    rw [List.foldl_cons, ih (resolveStep folder shards st pc) hsound]
    cases hk : shardKey pc with
    | none =>
      have hre : (resolveStep folder shards st pc).reads = st.reads := by
        simp [resolveStep, hk]
      have hca : (resolveStep folder shards st pc).cache = st.cache := by
        simp [resolveStep, hk]
      have hpath : pathOfPc folder pc = none := by simp [pathOfPc, hk]
      rw [hre, hca]
      simp [hitCount, hpath]
    | some k =>
      have hpath : pathOfPc folder pc = some (shardPath folder k) := by
        simp [pathOfPc, hk]
      cases hl : lookupCache st.cache (shardPath folder k) with
      | some tbl =>
        have hre : (resolveStep folder shards st pc).reads = st.reads := by
          simp [resolveStep, hk, hl, matchStep_reads]
        have hca : (resolveStep folder shards st pc).cache = st.cache := by
          simp [resolveStep, hk, hl, matchStep_cache]
        rw [hre, hca]
        by_cases hqp : shardPath folder k = p
        · rw [hqp] at hl
          have hisSome : (shards p).isSome = true := by
            rw [hs p tbl hl]
            rfl
          simp [hitCount, hpath, hqp, hl, hisSome]
        · simp [hitCount, hpath, hqp]
      | none =>
        cases hq : shards (shardPath folder k) with
        | none =>
          have hre : (resolveStep folder shards st pc).reads
              = st.reads ++ [shardPath folder k] := by
            simp [resolveStep, hk, hl, hq]
          have hca : (resolveStep folder shards st pc).cache = st.cache := by
            simp [resolveStep, hk, hl, hq]
          rw [hre, hca, countOcc_append]
          by_cases hqp : shardPath folder k = p
          · rw [hqp] at hq
            simp [hitCount, hpath, hqp, hq, countOcc]
            exact Nat.add_assoc _ 1 _
          · simp [hitCount, hpath, hqp, countOcc]
        | some tbl =>
          have hre : (resolveStep folder shards st pc).reads
              = st.reads ++ [shardPath folder k] := by
            simp [resolveStep, hk, hl, hq, matchStep_reads]
          have hca : (resolveStep folder shards st pc).cache
              = st.cache ++ [(shardPath folder k, tbl)] := by
            simp [resolveStep, hk, hl, hq, matchStep_cache]
          rw [hre, hca, countOcc_append]
          by_cases hqp : shardPath folder k = p
          · rw [hqp] at hl hq
            have hl2 : lookupCache (st.cache ++ [(p, tbl)]) p = some tbl := by
              rw [lookup_append_one_of_none st.cache p tbl p hl]
              simp
            have hisSome : (shards p).isSome = true := by
              rw [hq]
              rfl
            have hmin : min 1 (1 + hitCount folder p rest) = 1 :=
              min_eq_left (Nat.le_add_right 1 (hitCount folder p rest))
            simp [hitCount, hpath, hqp, hl, hl2, hisSome, countOcc, hmin]
          · have hl2 : lookupCache (st.cache ++ [(shardPath folder k, tbl)]) p
                = lookupCache st.cache p :=
              lookup_append_other st.cache (shardPath folder k) tbl p hqp
            rw [hl2]
            simp [hitCount, hpath, hqp, countOcc]

/-- Claim C8 (amended): within one resolution pass, a shard whose file
    loads successfully is read from disk at most once (exactly once when
    any postcode routes to it); but a shard whose load fails is not
    memoized — it is re-read, and a failure warning recorded, once per
    postcode routing to it. -/
theorem c8_read_count_amended (folder : Str) (shards : Str → Option GeoTable)
    (pcs : List Str) (p : Str) :
    countOcc p (getPostcodeShapefile folder shards pcs).2.2
      = (if (shards p).isSome then min 1 (hitCount folder p pcs)
         else hitCount folder p pcs) := by
  have h := foldReads folder shards p pcs initState (cacheSound_nil shards)
  show countOcc p (List.foldl (resolveStep folder shards) initState pcs).reads = _
  rw [h]
  simp [initState, lookupCache, countOcc]

/-- Counterexample for C8 (as stated): with the xx shard unreadable, the
    two postcodes XX1A and XX2B both route to it; the shard file is read
    twice and the failure recorded twice — not memoized, not recorded
    once. -/
theorem c8_reread_cex :
    countOcc (shardPath fdr3 ['x', 'x'])
        (getPostcodeShapefile fdr3 noShards [sXA, sXB]).2.2 = 2 ∧
    (getPostcodeShapefile fdr3 noShards [sXA, sXB]).2.1
      = [(sXA, Reason.shardLoadFailed), (sXB, Reason.shardLoadFailed)] := by
  decide

/-
  get_available_regions: `str.replace` versus suffix stripping.
-/

theorem leadsWith_refl (l : Str) : leadsWith l l = true := by
  induction l with
  | nil => rfl
  | cons c cs ih => simp [leadsWith, ih]

theorem leadsWith_iff (p : Str) : ∀ s : Str, leadsWith p s = true ↔ ∃ r, s = p ++ r := by
  induction p with
  | nil =>
    intro s
    simp [leadsWith]
  | cons a pa ih =>
    intro s
    cases s with
    | nil =>
      simp [leadsWith]
    | cons b t =>
      by_cases hab : a = b
      · subst hab
        simp [leadsWith, ih t]
      · constructor
        · intro h
          simp [leadsWith, hab] at h
        · intro h
          obtain ⟨r, hr⟩ := h
          injection hr with h1 _
          exact absurd h1.symm hab

theorem take_len_append {α : Type} (a b : List α) : List.take a.length (a ++ b) = a := by
  induction a with
  | nil => rfl
  | cons x xs ih => simp [List.take, ih]

theorem hasGeoSuffix_decomp (f : Str) (h : hasGeoSuffix f = true) :
    f = stripGeoSuffix f ++ marker := by
  unfold hasGeoSuffix at h
  obtain ⟨r, hr⟩ := (leadsWith_iff marker.reverse f.reverse).mp h
  have hf : f = r.reverse ++ marker := by
    have h2 := congrArg List.reverse hr
    simpa using h2
  have key : List.take (f.length - marker.length) f = r.reverse := by
    conv_lhs => rw [hf]
    simp only [List.length_append, Nat.add_sub_cancel]
    exact take_len_append r.reverse marker
  rw [stripGeoSuffix, key]
  exact hf

theorem removeAux_stem (pat : Str) (hp : pat ≠ []) :
    ∀ (stem : Str) (fuel : Nat), stem.length < fuel →
      (∀ i, i < stem.length → leadsWith pat (List.drop i (stem ++ pat)) = false) →
      removeAux pat fuel (stem ++ pat) = stem := by
  intro stem
  induction stem with
  | nil =>
    intro fuel hf _
    cases pat with
    | nil => exact absurd rfl hp
    | cons c cs =>
      cases fuel with
      | zero => simp at hf
      | succ f =>
        show removeAux (c :: cs) (f + 1) ([] ++ (c :: cs)) = []
        simp only [List.nil_append]
        rw [removeAux]
        rw [if_pos ⟨hp, leadsWith_refl (c :: cs)⟩]
        have hd : List.drop ((c :: cs).length - 1) cs = [] := by
          simp [List.length_cons]
        rw [hd]
        cases f <;> rfl
  | cons c stem' ih =>
    intro fuel hf h
    cases fuel with
    | zero => simp at hf
    | succ f =>
      have h0 : leadsWith pat (c :: (stem' ++ pat)) = false := by
        have h00 := h 0 (by simp)
        simpa using h00
      show removeAux pat (f + 1) (c :: (stem' ++ pat)) = c :: stem'
      rw [removeAux]
      rw [if_neg (fun hcond => absurd h0 (by simp [hcond.2]))]
      have hrec : removeAux pat f (stem' ++ pat) = stem' := by
        apply ih f (by simp only [List.length_cons] at hf; omega)
        intro i hi
        have hsh := h (i + 1) (by simp only [List.length_cons]; omega)
        simpa using hsh
      rw [hrec]

theorem removeAllOcc_eq_strip (f : Str) (hsuf : hasGeoSuffix f = true)
    (hocc : noEarlyOcc f) :
    removeAllOcc marker f = stripGeoSuffix f := by
  have hdec := hasGeoSuffix_decomp f hsuf
  have hmark : marker ≠ [] := by decide
  rw [removeAllOcc]
  conv_lhs => rw [hdec]
  have hlen : f.length = (stripGeoSuffix f).length + marker.length := by
    conv_lhs => rw [hdec]
    simp [List.length_append]
  have hm : 0 < marker.length := by decide
  apply removeAux_stem marker hmark (stripGeoSuffix f) ((stripGeoSuffix f ++ marker).length)
  · simp only [List.length_append]
    omega
  · intro i hi
    have h1 : i < f.length := by omega
    have h2 : marker.length + i < f.length := by omega
    have h3 := hocc i h1 h2
    rw [hdec] at h3
    exact h3

/-- Claim C9 (amended): get_available_regions strips `_postcodes.geojson`
    with `str.replace`, which removes every occurrence of the marker, not
    only the final suffix; whenever no persisted file name contains the
    marker before its suffix position — the case for ordinary region
    names — the result is exactly the suffix-stripped names, sorted
    lexicographically. -/
theorem c9_regions_amended (files : List Str)
    (h : ∀ f, f ∈ files → hasGeoSuffix f = true → noEarlyOcc f) :
    getAvailableRegions files = specRegions files := by
  unfold getAvailableRegions specRegions
  congr 1
  apply List.map_congr_left
  intro f hf
  have hmem := List.mem_filter.mp hf
  exact removeAllOcc_eq_strip f hmem.2 (h f hmem.1 hmem.2)

/-- Witness for C9 (amended): a store holding LN_postcodes.geojson and
    EE_postcodes.geojson, whose catalogue is the suffix-stripped names in
    lexicographic order. -/
theorem c9_regions_witness :
    getAvailableRegions [fLN, fEE] = specRegions [fLN, fEE] ∧
    getAvailableRegions [fLN, fEE] = [rEE, rLN] :=
  ⟨c9_regions_amended [fLN, fEE] (by decide), by decide⟩

/-- Counterexample for C9 (as stated): a persisted file whose stem itself
    ends in the marker. Suffix stripping would give A_postcodes.geojson;
    the code's replace-all gives A. -/
theorem c9_replace_cex :
    getAvailableRegions [fDouble] = [ ['A'] ] ∧
    getAvailableRegions [fDouble] ≠ specRegions [fDouble] := by
  decide

end RAMap
